import Mathlib

/-!
Verification of the Fantia-Novel-Downloader repository.

The repository consists of two localized variants of the same script,
`Fantia-novel-downloader_en.py` and `Fantia-novel-downloader_ja.py`.
This development shallowly embeds the core pipeline of both variants:

* `sanitize_filename` (lines 60-71 of each file),
* the identifier collector `get_all_post_ids` (lines 77-140),
* the per-post fetcher `scrape_and_save_post_api` (lines 142-222), and
* the target-URL classification of `main` (en variant, lines 276-304).

Python strings are modelled as `List Char`.  Network and filesystem
effects are modelled by explicit data: a crawl consumes a trace of page
fetch results, and the fetcher returns a `PostOutcome` value recording
whether the post was skipped by the scope filter, dropped for lack of
text content (with a logged warning), or saved (with the sanitized
directory component, the sanitized file name, and the body that would
be written).  JSON dictionary lookups (`dict.get`) are modelled with
`Option`, `none` standing for an absent key.
-/

/-- Python strings are modelled as lists of characters. -/
abbrev Str := List Char

/-- Coercion from a Lean string literal to the `List Char` model. -/
def str (s : String) : Str := s.data

/-- Truthiness of an optional string in Python: a present, non-empty
string is truthy; an absent value (`None`) and the empty string are
falsy. -/
def truthyStr (o : Option Str) : Bool :=
  match o with
  | some s => !s.isEmpty
  | none => false

/-- Python's substring test `needle in hay` on strings. -/
def pyIn (needle hay : Str) : Bool :=
  match hay with
  | [] => needle.isEmpty
  | _ :: t => needle.isPrefixOf hay || pyIn needle t

/-- Python's `str.split(sep)` for a single-character separator: splits
at every occurrence of the separator, so the result always has one more
element than the number of separator occurrences (and is never empty). -/
def splitOnChar (sep : Char) : Str → List Str
  | [] => [[]]
  | c :: cs =>
    match splitOnChar sep cs with
    | [] => [[]]
    | w :: ws => if c = sep then [] :: w :: ws else (c :: w) :: ws

/-- Trailing path segment of an href: `href.split('/')[-1]` in the
source (the split of a string is never empty, so the `[-1]` index never
fails). -/
def lastSegment (l : Str) : Str :=
  (splitOnChar '/' l).getLastD []

/-- Whitespace characters stripped by Python's `int` before parsing
(modelled over the ASCII whitespace characters). -/
def isPyWs (c : Char) : Bool :=
  c == ' ' || c == '\t' || c == '\n' || c == '\r' || c == '\x0b' || c == '\x0c'

/-- Strip leading and trailing whitespace, as Python's `int` does with
its string argument. -/
def stripWs (l : Str) : Str :=
  ((l.dropWhile isPyWs).reverse.dropWhile isPyWs).reverse

/-- Numeric value of an ASCII digit character. -/
def digitVal (c : Char) : Nat := c.toNat - '0'.toNat

/-- Value of a big-endian run of ASCII digit characters, accumulated
left to right. -/
def digitsToNat (l : Str) : Nat :=
  l.foldl (fun a c => 10 * a + digitVal c) 0

/-- Validity of the digit run accepted by Python's `int` after the
optional sign: a non-empty sequence of ASCII digits in which a group
separator underscore may appear only between two digits (so the run
starts and ends with a digit and never has two consecutive
underscores). -/
def validDigitRun (l : Str) : Bool :=
  !l.isEmpty &&
  l.all (fun c => c.isDigit || c == '_') &&
  (match l.head? with | some c => c.isDigit | none => false) &&
  (match l.getLast? with | some c => c.isDigit | none => false) &&
  (l.zip l.tail).all (fun p => !(p.1 == '_' && p.2 == '_'))

/-- Python's builtin `int(s)` on a string argument, modelled over ASCII:
surrounding whitespace is stripped, an optional single sign is allowed,
and the rest must be a valid digit run (underscore group separators
permitted between digits).  `none` models the `ValueError` raised on any
other input. -/
def pyIntOfChars (l : Str) : Option Int :=
  match stripWs l with
  | '+' :: rest =>
    if validDigitRun rest then some (Int.ofNat (digitsToNat (rest.filter (fun c => c != '_')))) else none
  | '-' :: rest =>
    if validDigitRun rest then some (-(Int.ofNat (digitsToNat (rest.filter (fun c => c != '_'))))) else none
  | t =>
    if validDigitRun t then some (Int.ofNat (digitsToNat (t.filter (fun c => c != '_')))) else none

/-- Decimal rendering of a natural number, as Python's string formatting
of a non-negative `int` produces. -/
def natToChars (n : Nat) : Str := Nat.toDigits 10 n

/-- Decimal rendering of an integer, as Python's f-string formatting of
an `int` produces. -/
def intToChars (i : Int) : Str :=
  match i with
  | .ofNat n => natToChars n
  | .negSucc n => '-' :: natToChars (n + 1)

/-- A membership plan attached to a content segment of the API response
(`c["plan"]`); its `price` key may be absent, in which case the source
reads it with default `0`. -/
structure Plan where
  price : Option Int
deriving DecidableEq, Repr

/-- One element of the `post_contents` list of the API response: an
optional text `comment` and an optional `plan`.  An absent key is
modelled as `none`. -/
structure Segment where
  comment : Option Str
  plan : Option Plan
deriving DecidableEq, Repr

/-- The `fanclub` object of the API response: an optional display name
`fanclub_name_with_creator_name` and an optional numeric `id`. -/
structure Fanclub where
  fanclub_name_with_creator_name : Option Str
  id : Option Int
deriving DecidableEq, Repr

/-- The `post` object of the API response, restricted to the keys the
fetcher reads.  `post_contents` is modelled as a list, the empty list
standing for both an absent and an empty JSON array (the source treats
the two identically through truthiness and the `.get` default `[]`). -/
structure Post where
  title : Option Str
  post_contents : List Segment
  comment : Option Str
  blog_comment : Option Str
  fanclub : Option Fanclub
deriving DecidableEq, Repr

/-- One listing page as the collector sees it after a successful fetch
and parse.  `frontendParams` models the `script#frontend-params`
element: `none` when the element is absent, `some none` when the
element is present but its BeautifulSoup `.string` is `None` (an empty
or mixed-content element), and `some (some s)` when it has string
content `s`.  `links` holds the `href` attribute of each selected
post-link anchor (`none` for an anchor without an `href`).  `nextHref`
holds the enabled pagination-next link's `href`, if any. -/
structure Page where
  frontendParams : Option (Option Str)
  links : List (Option Str)
  nextHref : Option Str
deriving DecidableEq, Repr

/-- Result of a whole collection run.  `ok ids` models a normal return
of the identifier list; `raised` models an exception escaping
`get_all_post_ids` to its caller. -/
inductive CrawlResult where
  | ok (ids : List Int)
  | raised
deriving DecidableEq, Repr

/-- Observable outcome of `scrape_and_save_post_api` on a post record:
skipped by the scope filter, dropped with a warning because no text
content was found, or saved.  For a saved post the constructor records
the sanitized creator-directory component, the sanitized file name, and
the extracted body — the data the source derives before writing. -/
inductive PostOutcome where
  | skippedScope
  | noContent
  | saved (dir file body : Str)
deriving DecidableEq, Repr

/-- Marker substring whose presence in the frontend-params script
content the collector treats as an unauthenticated session (both
variants, line 108). -/
def loggedOutMarker : Str := str "\x22is_logged_in\x22: false"

/-- Character class `[\\/:*?"<>|]` of `sanitize_filename` (both
variants, line 70). -/
def isInvalidChar (c : Char) : Bool :=
  c == '\\' || c == '/' || c == ':' || c == '*' || c == '?' ||
  c == '"' || c == '<' || c == '>' || c == '|'

namespace En

/-- Embeds `sanitize_filename` of `Fantia-novel-downloader_en.py`
(lines 60-71): `re.sub(r'[\\/:*?"<>|]', '-', filename)`.  A character
class substituted by a one-character replacement rewrites the string
character by character. -/
def sanitize_filename : Str → Str
  | [] => []
  | c :: cs => (if isInvalidChar c then '-' else c) :: sanitize_filename cs

/-- Embeds the per-anchor extraction of `get_all_post_ids` (en, lines
117-125): skip anchors without an `href`, require a truthy (non-empty)
`href` containing `/posts/`, and parse the trailing path segment with
`int`; a `ValueError` (`none` here) contributes nothing. -/
def extractLink : Option Str → Option Int
  | none => none
  | some href =>
    if ¬href.isEmpty = true ∧ pyIn (str "/posts/") href = true then
      pyIntOfChars (lastSegment href)
    else none

/-- Embeds the duplicate check of `get_all_post_ids` (en, lines
122-123): `if post_id not in post_ids: post_ids.append(post_id)`. -/
def insertInt (acc : List Int) (i : Int) : List Int :=
  if i ∈ acc then acc else acc ++ [i]

/-- One step of the link loop of `get_all_post_ids` (en, lines
117-125). -/
def linkStep (acc : List Int) (href : Option Str) : List Int :=
  match extractLink href with
  | some i => insertInt acc i
  | none => acc

/-- Embeds the page loop of `get_all_post_ids` (en, lines 99-137) over
a trace of fetch results: the n-th trace element is the outcome of the
n-th page fetch the loop performs (`none` for a `RequestException`,
including a non-2xx status raised by `raise_for_status`).  A fetch
failure returns `[]` (lines 135-137); an absent frontend-params element
returns `[]`; a present element whose string content contains the
logged-out marker returns `[]` (lines 107-110); a present element with
no string content makes the substring test `... in tag.string` raise a
`TypeError`, which no handler in the function catches (`raised`); a
page without post links leaves the loop with the identifiers collected
so far (lines 113-115); otherwise the links are folded into the
accumulator and the crawl follows a truthy next-page href, stopping
when there is none (lines 127-133).  An exhausted trace stops the crawl
with the identifiers collected so far; no claim depends on that case. -/
def crawl : List (Option Page) → List Int → CrawlResult
  | [], acc => .ok acc
  | none :: _, _ => .ok []
  | some pg :: rest, acc =>
    match pg.frontendParams with
    | none => .ok []
    | some none => .raised
    | some (some s) =>
      if pyIn loggedOutMarker s then .ok []
      else if pg.links.isEmpty then .ok acc
      else
        let acc2 := pg.links.foldl linkStep acc
        match pg.nextHref with
        | some h => if h.isEmpty then .ok acc2 else crawl rest acc2
        | none => .ok acc2

/-- Embeds `get_all_post_ids` of `Fantia-novel-downloader_en.py`
(lines 77-140), starting from the empty accumulator of line 90. -/
def get_all_post_ids (pages : List (Option Page)) : CrawlResult :=
  crawl pages []

/-- Embeds the paid classification of `scrape_and_save_post_api` (en,
line 176): `any(c.get("plan") and c["plan"].get("price", 0) > 0 for c
in post_data.get("post_contents", []))`.  A JSON `plan` that is the
empty object is falsy in Python exactly as a plan without a price fails
the comparison, so both are covered by the `price` default. -/
def is_paid (p : Post) : Bool :=
  p.post_contents.any (fun c =>
    match c.plan with
    | some pl => decide (0 < pl.price.getD 0)
    | none => false)

/-- Embeds the comprehension of `scrape_and_save_post_api` (en, line
189): `[c["comment"] for c in post_data["post_contents"] if
c.get("comment")]` — the truthy (present and non-empty) comment fields
in segment order. -/
def contentParts (p : Post) : List Str :=
  p.post_contents.filterMap (fun c =>
    match c.comment with
    | some s => if s.isEmpty then none else some s
    | none => none)

/-- Embeds the body extraction of `scrape_and_save_post_api` (en, lines
186-195): the double-newline join of the truthy segment comments when
`post_contents` is truthy and yields at least one part, else a truthy
top-level `comment`, else a truthy top-level `blog_comment`, else
`None`. -/
def extractBody (p : Post) : Option Str :=
  let fc1 : Option Str :=
    if ¬p.post_contents.isEmpty = true then
      if ¬(contentParts p).isEmpty = true then
        some (List.intercalate (str "\n\n") (contentParts p))
      else none
    else none
  let fc2 : Option Str :=
    match fc1 with
    | some b => some b
    | none => if truthyStr p.comment then p.comment else none
  match fc2 with
  | some b => some b
  | none => if truthyStr p.blog_comment then p.blog_comment else none

/-- Embeds the creator-name derivation of `scrape_and_save_post_api`
(en, line 202): the fanclub display name, with the synthetic fallback
`fanclub_{id}` when the key is absent (`{}.get('id')` yields `None`,
rendered `None` by the f-string, when the fanclub object itself is
absent). -/
def fanclubNameOf (p : Post) : Str :=
  match p.fanclub with
  | some fc =>
    match fc.fanclub_name_with_creator_name with
    | some nm => nm
    | none => str "fanclub_" ++ (match fc.id with
      | some i => intToChars i
      | none => str "None")
  | none => str "fanclub_" ++ str "None"

/-- Embeds the title derivation of `scrape_and_save_post_api` (en, line
173): `post_data.get("title", f"No Title {post_id}")`. -/
def titleOf (post_id : Int) (p : Post) : Str :=
  match p.title with
  | some t => t
  | none => str "No Title " ++ intToChars post_id

/-- Embeds the part of `scrape_and_save_post_api` after the scope
filter (en, lines 186-215): body extraction, the warning return for a
post without text, and the save with sanitized directory and file
names. -/
def afterScope (post_id : Int) (p : Post) : PostOutcome :=
  match extractBody p with
  | none => .noContent
  | some body =>
    .saved (sanitize_filename (fanclubNameOf p))
      (sanitize_filename (titleOf post_id p) ++ str ".txt") body

/-- Embeds `scrape_and_save_post_api` of `Fantia-novel-downloader_en.py`
from the decoded post object on (lines 173-215): the scope filter
(lines 179-184) followed by extraction and save. -/
def scrape_and_save_post_api (scope : Str) (post_id : Int) (p : Post) : PostOutcome :=
  if scope = str "paid" ∧ is_paid p = false then .skippedScope
  else if scope = str "free" ∧ is_paid p = true then .skippedScope
  else afterScope post_id p

/-- The three ways `main` of the en variant dispatches on a target URL
(lines 279-304). -/
inductive UrlAction where
  | fanclub
  | singlePost
  | unsupported
deriving DecidableEq, Repr

/-- Embeds the target-URL classification of `main` in the en variant
(lines 279-304): `if '/fanclubs/' in url: ... elif '/posts/' in url:
... else: ...`. -/
def classifyUrl (url : Str) : UrlAction :=
  if pyIn (str "/fanclubs/") url then .fanclub
  else if pyIn (str "/posts/") url then .singlePost
  else .unsupported

end En

namespace Ja

/-- Embeds `sanitize_filename` of `Fantia-novel-downloader_ja.py`
(lines 60-71): `re.sub(invalid_chars, '－', filename)` with the same
character class as the en variant but a full-width-hyphen
replacement. -/
def sanitize_filename : Str → Str
  | [] => []
  | c :: cs => (if isInvalidChar c then '－' else c) :: sanitize_filename cs

/-- Embeds the per-anchor extraction of `get_all_post_ids` of
`Fantia-novel-downloader_ja.py` (lines 117-125), textually identical to
the en variant. -/
def extractLink : Option Str → Option Int
  | none => none
  | some href =>
    if ¬href.isEmpty = true ∧ pyIn (str "/posts/") href = true then
      pyIntOfChars (lastSegment href)
    else none

/-- Embeds the duplicate check of `get_all_post_ids` (ja, lines
122-123). -/
def insertInt (acc : List Int) (i : Int) : List Int :=
  if i ∈ acc then acc else acc ++ [i]

/-- One step of the link loop of `get_all_post_ids` (ja, lines
117-125). -/
def linkStep (acc : List Int) (href : Option Str) : List Int :=
  match extractLink href with
  | some i => insertInt acc i
  | none => acc

/-- Embeds the page loop of `get_all_post_ids` of
`Fantia-novel-downloader_ja.py` (lines 99-137), textually identical to
the en variant; see `En.crawl` for the trace convention. -/
def crawl : List (Option Page) → List Int → CrawlResult
  | [], acc => .ok acc
  | none :: _, _ => .ok []
  | some pg :: rest, acc =>
    match pg.frontendParams with
    | none => .ok []
    | some none => .raised
    | some (some s) =>
      if pyIn loggedOutMarker s then .ok []
      else if pg.links.isEmpty then .ok acc
      else
        let acc2 := pg.links.foldl linkStep acc
        match pg.nextHref with
        | some h => if h.isEmpty then .ok acc2 else crawl rest acc2
        | none => .ok acc2

/-- Embeds `get_all_post_ids` of `Fantia-novel-downloader_ja.py`
(lines 77-140). -/
def get_all_post_ids (pages : List (Option Page)) : CrawlResult :=
  crawl pages []

/-- Embeds the paid classification of `scrape_and_save_post_api` of
`Fantia-novel-downloader_ja.py` (line 175), textually identical to the
en variant. -/
def is_paid (p : Post) : Bool :=
  p.post_contents.any (fun c =>
    match c.plan with
    | some pl => decide (0 < pl.price.getD 0)
    | none => false)

/-- Embeds the comprehension of `scrape_and_save_post_api` (ja, line
188). -/
def contentParts (p : Post) : List Str :=
  p.post_contents.filterMap (fun c =>
    match c.comment with
    | some s => if s.isEmpty then none else some s
    | none => none)

/-- Embeds the body extraction of `scrape_and_save_post_api` (ja, lines
185-194), textually identical to the en variant. -/
def extractBody (p : Post) : Option Str :=
  let fc1 : Option Str :=
    if ¬p.post_contents.isEmpty = true then
      if ¬(contentParts p).isEmpty = true then
        some (List.intercalate (str "\n\n") (contentParts p))
      else none
    else none
  let fc2 : Option Str :=
    match fc1 with
    | some b => some b
    | none => if truthyStr p.comment then p.comment else none
  match fc2 with
  | some b => some b
  | none => if truthyStr p.blog_comment then p.blog_comment else none

/-- Embeds the creator-name derivation of `scrape_and_save_post_api`
(ja, line 201). -/
def fanclubNameOf (p : Post) : Str :=
  match p.fanclub with
  | some fc =>
    match fc.fanclub_name_with_creator_name with
    | some nm => nm
    | none => str "fanclub_" ++ (match fc.id with
      | some i => intToChars i
      | none => str "None")
  | none => str "fanclub_" ++ str "None"

/-- Embeds the title derivation of `scrape_and_save_post_api` (ja, line
172). -/
def titleOf (post_id : Int) (p : Post) : Str :=
  match p.title with
  | some t => t
  | none => str "No Title " ++ intToChars post_id

/-- Embeds the part of `scrape_and_save_post_api` after the scope
filter (ja, lines 185-214). -/
def afterScope (post_id : Int) (p : Post) : PostOutcome :=
  match extractBody p with
  | none => .noContent
  | some body =>
    .saved (sanitize_filename (fanclubNameOf p))
      (sanitize_filename (titleOf post_id p) ++ str ".txt") body

/-- Embeds `scrape_and_save_post_api` of `Fantia-novel-downloader_ja.py`
from the decoded post object on (lines 172-214). -/
def scrape_and_save_post_api (scope : Str) (post_id : Int) (p : Post) : PostOutcome :=
  if scope = str "paid" ∧ is_paid p = false then .skippedScope
  else if scope = str "free" ∧ is_paid p = true then .skippedScope
  else afterScope post_id p

end Ja

/-- Modelled from the spec: the "ordered set (first-seen order,
duplicates dropped)" of section 3 — keep the first occurrence of every
identifier, in encounter order.  This is the specification-side
description against which the collector's accumulator discipline is
compared. -/
def firstOccurrences : List Int → List Int
  | [] => []
  | x :: xs => x :: (firstOccurrences xs).filter (fun y => y != x)

/-- Modelled from the spec: "the integer value of `<digits>`" (section
8) — the value of a big-endian decimal digit string, via Mathlib's
little-endian `Nat.ofDigits`. -/
def decimalValue (l : Str) : Nat :=
  Nat.ofDigits 10 (l.reverse.map digitVal)

/-- Characterization of `List.isPrefixOf` on character lists. -/
theorem isPrefixOf_eq_true_iff (n : Str) : ∀ h : Str, n.isPrefixOf h = true ↔ ∃ t, h = n ++ t := by
  induction n with
  | nil => intro h; simp [List.isPrefixOf]
  | cons a as ih =>
    intro h
    cases h with
    | nil => simp [List.isPrefixOf]
    | cons b bs =>
      simp only [List.isPrefixOf, Bool.and_eq_true, beq_iff_eq, ih, List.cons_append,
        List.cons.injEq]
      constructor
      · rintro ⟨rfl, t, rfl⟩; exact ⟨t, rfl, rfl⟩
      · rintro ⟨t, rfl, rfl⟩; exact ⟨rfl, t, rfl⟩

/-- The model `pyIn` of Python's `in` holds exactly on substrings. -/
theorem pyIn_eq_true_iff (n : Str) : ∀ h : Str, pyIn n h = true ↔ ∃ s t, h = s ++ n ++ t := by
  intro h
  induction h with
  | nil =>
    simp only [pyIn, List.isEmpty_iff]
    constructor
    · rintro rfl; exact ⟨[], [], rfl⟩
    · rintro ⟨s, t, ht⟩
      rcases List.append_eq_nil.mp ht.symm with ⟨h1, h2⟩
      exact (List.append_eq_nil.mp h1).2
  | cons c cs ih =>
    simp only [pyIn, Bool.or_eq_true, isPrefixOf_eq_true_iff, ih]
    constructor
    · rintro (⟨t, ht⟩ | ⟨s, t, ht⟩)
      · exact ⟨[], t, by simpa using ht⟩
      · exact ⟨c :: s, t, by simp [ht]⟩
    · rintro ⟨s, t, ht⟩
      cases s with
      | nil => exact Or.inl ⟨t, by simpa using ht⟩
      | cons x xs =>
        right
        simp only [List.cons_append, List.cons.injEq] at ht
        exact ⟨xs, t, ht.2⟩

/-- Sanitization in the en variant preserves the length of its input. -/
theorem sanitize_en_length (l : Str) : (En.sanitize_filename l).length = l.length := by
  induction l with
  | nil => rfl
  | cons c cs ih => simp [En.sanitize_filename, ih]

/-- Sanitization in the ja variant preserves the length of its input. -/
theorem sanitize_ja_length (l : Str) : (Ja.sanitize_filename l).length = l.length := by
  induction l with
  | nil => rfl
  | cons c cs ih => simp [Ja.sanitize_filename, ih]

/-- Pointwise description of en sanitization. -/
theorem sanitize_en_getD (l : Str) : ∀ i, i < l.length →
    (En.sanitize_filename l).getD i 'a'
      = (if isInvalidChar (l.getD i 'a') then '-' else l.getD i 'a') := by
  induction l with
  | nil => intro i hi; simp at hi
  | cons c cs ih =>
    intro i hi
    cases i with
    | zero => simp [En.sanitize_filename]
    | succ j =>
      simp only [En.sanitize_filename, List.getD_cons_succ]
      exact ih j (by simpa using hi)

/-- Pointwise description of ja sanitization. -/
theorem sanitize_ja_getD (l : Str) : ∀ i, i < l.length →
    (Ja.sanitize_filename l).getD i 'a'
      = (if isInvalidChar (l.getD i 'a') then '－' else l.getD i 'a') := by
  induction l with
  | nil => intro i hi; simp at hi
  | cons c cs ih =>
    intro i hi
    cases i with
    | zero => simp [Ja.sanitize_filename]
    | succ j =>
      simp only [Ja.sanitize_filename, List.getD_cons_succ]
      exact ih j (by simpa using hi)

/-- An optional string is truthy exactly when it is a present non-empty
string. -/
theorem truthyStr_eq_true_iff (o : Option Str) :
    truthyStr o = true ↔ ∃ s, o = some s ∧ s ≠ [] := by
  cases o with
  | none => simp [truthyStr]
  | some s => simp [truthyStr, List.isEmpty_iff]

/-- The comprehension over segment comments is non-empty exactly when
some segment carries a present, non-empty comment. -/
theorem contentParts_ne_nil_iff (p : Post) :
    En.contentParts p ≠ [] ↔ ∃ c ∈ p.post_contents, ∃ s, c.comment = some s ∧ s ≠ [] := by
  rw [ne_eq, En.contentParts, List.filterMap_eq_nil_iff]
  push_neg
  constructor
  · rintro ⟨c, hc, hf⟩
    refine ⟨c, hc, ?_⟩
    cases hcom : c.comment with
    | none => simp [hcom] at hf
    | some s =>
      refine ⟨s, rfl, ?_⟩
      intro hs
      subst hs
      simp [hcom] at hf
  · rintro ⟨c, hc, s, hcom, hs⟩
    refine ⟨c, hc, ?_⟩
    simp [hcom, List.isEmpty_iff, hs]

/-- An ASCII digit is not one of the whitespace characters Python's
`int` strips. -/
theorem isDigit_not_pyWs (c : Char) (h : c.isDigit = true) : isPyWs c = false := by
  simp only [isPyWs, Bool.or_eq_false_iff, beq_eq_false_iff_ne, ne_eq]
  refine ⟨⟨⟨⟨⟨?_, ?_⟩, ?_⟩, ?_⟩, ?_⟩, ?_⟩ <;> rintro rfl <;> simp [Char.isDigit] at h

/-- Dropping a failed predicate from the front of a list that satisfies
it nowhere is the identity. -/
theorem dropWhile_eq_self_of_not (p : Char → Bool) (l : Str)
    (h : ∀ c ∈ l, p c = false) : l.dropWhile p = l := by
  cases l with
  | nil => rfl
  | cons c cs => simp [List.dropWhile, h c (by simp)]

/-- Stripping whitespace from a string without whitespace is the
identity. -/
theorem stripWs_eq_self_of_no_ws (l : Str) (h : ∀ c ∈ l, isPyWs c = false) :
    stripWs l = l := by
  unfold stripWs
  rw [dropWhile_eq_self_of_not _ _ h,
    dropWhile_eq_self_of_not _ _ (fun c hc => h c (List.mem_reverse.mp hc)),
    List.reverse_reverse]

/-- A non-empty all-digit string is a valid digit run for `int`. -/
theorem validDigitRun_of_all_digits (l : Str) (hne : l ≠ [])
    (h : ∀ c ∈ l, c.isDigit = true) : validDigitRun l = true := by
  unfold validDigitRun
  simp only [Bool.and_eq_true, Bool.not_eq_eq_eq_not, Bool.not_true, List.all_eq_true]
  refine ⟨⟨⟨⟨?_, ?_⟩, ?_⟩, ?_⟩, ?_⟩
  · simp [List.isEmpty_iff, hne]
  · intro c hc; simp [h c hc]
  · cases l with
    | nil => exact absurd rfl hne
    | cons c cs => simpa using h c (by simp)
  · cases hg : l.getLast? with
    | none => exact absurd (List.getLast?_eq_none_iff.mp hg) hne
    | some c =>
      have hcl : c ∈ l := by
        obtain ⟨hl, hx⟩ := List.mem_getLast?_eq_getLast (l := l) (x := c) (by simp [hg])
        rw [hx]
        exact List.getLast_mem hl
      simpa using h c hcl
  · intro pp hp
    have h1 : pp.1 ∈ l := (List.of_mem_zip hp).1
    have hd := h pp.1 h1
    simp only [Bool.and_eq_false_iff, beq_eq_false_iff_ne, ne_eq]
    left
    intro he
    rw [he] at hd
    simp [Char.isDigit] at hd

/-- Removing underscores from an all-digit string is the identity. -/
theorem filter_underscore_of_digits (l : Str) (h : ∀ c ∈ l, c.isDigit = true) :
    l.filter (fun c => c != '_') = l := by
  apply List.filter_eq_self.mpr
  intro c hc
  have := h c hc
  simp only [bne_iff_ne, ne_eq, decide_eq_true_eq]
  rintro rfl
  simp [Char.isDigit] at this

/-- The left fold of the digit-accumulation step computes the decimal
value, for any initial accumulator. -/
theorem foldl_digits_eq (l : Str) : ∀ a : Nat,
    l.foldl (fun a c => 10 * a + digitVal c) a = a * 10 ^ l.length + decimalValue l := by
  induction l with
  | nil => intro a; simp [decimalValue, Nat.ofDigits]
  | cons c cs ih =>
    intro a
    simp only [List.foldl_cons, ih]
    unfold decimalValue
    simp only [List.reverse_cons, List.map_append, List.map_cons, List.map_nil,
      Nat.ofDigits_append, List.length_map, List.length_reverse, List.length_cons,
      Nat.ofDigits_cons, Nat.ofDigits_nil]
    ring

/-- Big-endian digit accumulation agrees with the specification-side
decimal value. -/
theorem digitsToNat_eq_decimalValue (l : Str) : digitsToNat l = decimalValue l := by
  simpa using foldl_digits_eq l 0

/-- Python's `int` on a non-empty all-digit string returns its decimal
value. -/
theorem pyIntOfChars_of_digits (l : Str) (hne : l ≠ [])
    (h : ∀ c ∈ l, c.isDigit = true) :
    pyIntOfChars l = some (Int.ofNat (decimalValue l)) := by
  have hstrip : stripWs l = l :=
    stripWs_eq_self_of_no_ws l (fun c hc => isDigit_not_pyWs c (h c hc))
  unfold pyIntOfChars
  rw [hstrip]
  split
  · exfalso
    have := h '+' (by simp)
    simp [Char.isDigit] at this
  · exfalso
    have := h '-' (by simp)
    simp [Char.isDigit] at this
  · rw [validDigitRun_of_all_digits l hne h, if_pos rfl, filter_underscore_of_digits l h,
      digitsToNat_eq_decimalValue]

/-- The first-occurrence projection commutes with filtering. -/
theorem firstOccurrences_filter_comm (p : Int → Bool) : ∀ l : List Int,
    firstOccurrences (l.filter p) = (firstOccurrences l).filter p := by
  intro l
  induction l with
  | nil => rfl
  | cons x xs ih =>
    by_cases hx : p x = true
    · simp only [List.filter_cons, hx, if_true, firstOccurrences, ih, List.filter_filter]
      congr 1
      apply List.filter_congr
      intro y _
      rw [Bool.and_comm]
    · simp only [List.filter_cons, hx, if_false, firstOccurrences, ih, Bool.false_eq_true]
      rw [List.filter_filter]
      apply List.filter_congr
      intro y _
      by_cases hyx : y = x
      · subst hyx; simp [hx]
      · simp [hyx]

/-- The collector's append-if-new accumulator discipline computes
exactly the first occurrences of the identifiers not yet collected. -/
theorem foldl_insertInt_eq (ids : List Int) : ∀ acc : List Int,
    ids.foldl En.insertInt acc
      = acc ++ firstOccurrences (ids.filter (fun i => decide (i ∉ acc))) := by
  induction ids with
  | nil => intro acc; simp [firstOccurrences]
  | cons x xs ih =>
    intro acc
    by_cases hx : x ∈ acc
    · have hstep : En.insertInt acc x = acc := by simp [En.insertInt, hx]
      simp only [List.foldl_cons, hstep, ih, List.filter_cons, hx, decide_not]
      simp [hx]
    · have hstep : En.insertInt acc x = acc ++ [x] := by simp [En.insertInt, hx]
      simp only [List.foldl_cons, hstep, ih]
      have hfilter : xs.filter (fun i => decide (i ∉ acc ++ [x]))
          = (xs.filter (fun i => decide (i ∉ acc))).filter (fun i => i != x) := by
        rw [List.filter_filter]
        apply List.filter_congr
        intro y _
        by_cases hy : y ∈ acc <;> by_cases hyx : y = x <;>
          simp [hy, hyx, List.mem_append]
      rw [hfilter, firstOccurrences_filter_comm]
      have hcons : (x :: xs).filter (fun i => decide (i ∉ acc))
          = x :: xs.filter (fun i => decide (i ∉ acc)) := by
        simp [List.filter_cons, hx]
      rw [hcons]
      simp [firstOccurrences, firstOccurrences_filter_comm]

/-- The append-if-new step preserves the no-duplicates invariant. -/
theorem insertInt_preserves_nodup (acc : List Int) (i : Int) (h : acc.Nodup) :
    (En.insertInt acc i).Nodup := by
  unfold En.insertInt
  split
  · exact h
  · rename_i hni
    rw [List.nodup_append]
    refine ⟨h, List.nodup_singleton i, ?_⟩
    intro a ha hai
    rw [List.mem_singleton] at hai
    subst hai
    exact hni ha

/-- One anchor step of the collector preserves the no-duplicates
invariant. -/
theorem linkStep_preserves_nodup (acc : List Int) (o : Option Str) (h : acc.Nodup) :
    (En.linkStep acc o).Nodup := by
  unfold En.linkStep
  split
  · exact insertInt_preserves_nodup _ _ h
  · exact h

/-- Folding the anchor step over a page's links preserves the
no-duplicates invariant. -/
theorem foldl_linkStep_preserves_nodup (links : List (Option Str)) :
    ∀ acc : List Int, acc.Nodup → (links.foldl En.linkStep acc).Nodup := by
  induction links with
  | nil => intro acc h; exact h
  | cons x xs ih =>
    intro acc h
    exact ih _ (linkStep_preserves_nodup _ _ h)

/-- Every identifier list the page loop returns normally from a
duplicate-free accumulator is duplicate-free. -/
theorem crawl_preserves_nodup : ∀ (t : List (Option Page)) (acc : List Int),
    acc.Nodup → ∀ ids, En.crawl t acc = .ok ids → ids.Nodup := by
  intro t
  induction t with
  | nil =>
    intro acc h ids hok
    unfold En.crawl at hok
    cases hok
    exact h
  | cons hd tl ih =>
    intro acc h ids hok
    cases hd with
    | none =>
      unfold En.crawl at hok
      cases hok
      exact List.nodup_nil
    | some pg =>
      unfold En.crawl at hok
      rcases hfp : pg.frontendParams with _ | s
      · rw [hfp] at hok; cases hok; exact List.nodup_nil
      · rcases s with _ | s'
        · rw [hfp] at hok; cases hok
        · rw [hfp] at hok
          by_cases hm : pyIn loggedOutMarker s' = true
          · simp only [hm, if_true] at hok; cases hok; exact List.nodup_nil
          · simp only [hm, if_false, Bool.false_eq_true] at hok
            by_cases hl : pg.links.isEmpty = true
            · simp only [hl, if_true] at hok; cases hok; exact h
            · simp only [hl, if_false, Bool.false_eq_true] at hok
              have hacc2 : (pg.links.foldl En.linkStep acc).Nodup :=
                foldl_linkStep_preserves_nodup _ _ h
              rcases hnx : pg.nextHref with _ | nh
              · rw [hnx] at hok; cases hok; exact hacc2
              · rw [hnx] at hok
                by_cases hh : nh.isEmpty = true
                · simp only [hh, if_true] at hok; cases hok; exact hacc2
                · simp only [hh, if_false, Bool.false_eq_true] at hok
                  exact ih _ hacc2 _ hok

/-- The en extraction yields the double-newline join whenever some
segment comment survives the comprehension. -/
theorem extractBody_of_parts (p : Post) (hcp : En.contentParts p ≠ []) :
    En.extractBody p = some (List.intercalate (str "\n\n") (En.contentParts p)) := by
  have hpc : p.post_contents ≠ [] := by
    intro h
    apply hcp
    simp [En.contentParts, h]
  simp [En.extractBody, List.isEmpty_iff, hpc, hcp]

/-- The en extraction falls back to the top-level comment when the
comprehension is empty and the comment is truthy. -/
theorem extractBody_of_comment (p : Post) (hcp : En.contentParts p = [])
    (hc : truthyStr p.comment = true) : En.extractBody p = p.comment := by
  obtain ⟨s, hs, hsne⟩ := (truthyStr_eq_true_iff p.comment).mp hc
  rw [hs] at hc ⊢
  by_cases hpc : p.post_contents.isEmpty = true
  · simp [En.extractBody, hpc, hc, hs]
  · simp [En.extractBody, hpc, hcp, hc, hs]

/-- The en extraction falls back to the blog comment when both earlier
sources are falsy. -/
theorem extractBody_of_blog (p : Post) (hcp : En.contentParts p = [])
    (hc : truthyStr p.comment = false) (hb : truthyStr p.blog_comment = true) :
    En.extractBody p = p.blog_comment := by
  obtain ⟨s, hs, hsne⟩ := (truthyStr_eq_true_iff p.blog_comment).mp hb
  rw [hs] at hb ⊢
  by_cases hpc : p.post_contents.isEmpty = true
  · simp [En.extractBody, hpc, hc, hb, hs]
  · simp [En.extractBody, hpc, hcp, hc, hb, hs]

/-- The en extraction yields nothing when all three sources are falsy. -/
theorem extractBody_of_none (p : Post) (hcp : En.contentParts p = [])
    (hc : truthyStr p.comment = false) (hb : truthyStr p.blog_comment = false) :
    En.extractBody p = none := by
  by_cases hpc : p.post_contents.isEmpty = true
  · simp [En.extractBody, hpc, hc, hb]
  · simp [En.extractBody, hpc, hcp, hc, hb]

/-- When extraction yields nothing, the code after the scope filter
logs a warning and writes no file. -/
theorem afterScope_noContent_of_none (pid : Int) (p : Post)
    (h : En.extractBody p = none) : En.afterScope pid p = .noContent := by
  simp [En.afterScope, h]

/-- The code after the scope filter never reports a scope skip. -/
theorem afterScope_en_ne_skip (pid : Int) (p : Post) :
    En.afterScope pid p ≠ .skippedScope := by
  unfold En.afterScope
  split <;> simp

/-- The ja code after the scope filter never reports a scope skip. -/
theorem afterScope_ja_ne_skip (pid : Int) (p : Post) :
    Ja.afterScope pid p ≠ .skippedScope := by
  unfold Ja.afterScope
  split <;> simp

/-- Characterization of the paid classification: some segment has a
plan priced above zero (an absent price defaulting to zero). -/
theorem is_paid_eq_true_iff (p : Post) :
    En.is_paid p = true ↔
      ∃ c ∈ p.post_contents, ∃ pl, c.plan = some pl ∧ 0 < pl.price.getD 0 := by
  unfold En.is_paid
  rw [List.any_eq_true]
  constructor
  · rintro ⟨c, hc, hpl⟩
    refine ⟨c, hc, ?_⟩
    cases hplan : c.plan with
    | none => rw [hplan] at hpl; simp at hpl
    | some pl =>
      rw [hplan] at hpl
      simp only [decide_eq_true_eq] at hpl
      exact ⟨pl, rfl, hpl⟩
  · rintro ⟨c, hc, pl, hplan, hpr⟩
    exact ⟨c, hc, by simp [hplan, hpr]⟩

/-- The en fetcher reports a scope skip exactly when one of the two
skip conditions of the source holds. -/
theorem scrape_en_skipped_iff (scope : Str) (pid : Int) (p : Post) :
    En.scrape_and_save_post_api scope pid p = .skippedScope ↔
      ((scope = str "paid" ∧ En.is_paid p = false) ∨
       (scope = str "free" ∧ En.is_paid p = true)) := by
  unfold En.scrape_and_save_post_api
  split
  · rename_i h1; simp [h1]
  · rename_i h1
    split
    · rename_i h2; simp [h1, h2]
    · rename_i h2
      simp only [h1, h2, or_self, iff_false]
      exact afterScope_en_ne_skip pid p

/-- The ja fetcher reports a scope skip exactly when one of the two
skip conditions of the source holds. -/
theorem scrape_ja_skipped_iff (scope : Str) (pid : Int) (p : Post) :
    Ja.scrape_and_save_post_api scope pid p = .skippedScope ↔
      ((scope = str "paid" ∧ Ja.is_paid p = false) ∨
       (scope = str "free" ∧ Ja.is_paid p = true)) := by
  unfold Ja.scrape_and_save_post_api
  split
  · rename_i h1; simp [h1]
  · rename_i h1
    split
    · rename_i h2; simp [h1, h2]
    · rename_i h2
      simp only [h1, h2, or_self, iff_false]
      exact afterScope_ja_ne_skip pid p

/-- The two variants compute the same paid classification. -/
theorem is_paid_en_eq_ja (p : Post) : En.is_paid p = Ja.is_paid p := rfl

/-- The two variants extract the same body. -/
theorem extractBody_en_eq_ja (p : Post) : En.extractBody p = Ja.extractBody p := rfl

/-- The two variants run the same anchor step. -/
theorem linkStep_en_eq_ja : En.linkStep = Ja.linkStep := by
  funext x y
  cases y <;> rfl

/-- The two variants run the same page loop. -/
theorem crawl_en_eq_ja : ∀ (t : List (Option Page)) (a : List Int),
    En.crawl t a = Ja.crawl t a := by
  intro t
  induction t with
  | nil => intro a; rfl
  | cons hd tl ih =>
    intro a
    cases hd with
    | none => rfl
    | some pg =>
      obtain ⟨fp, links, nxt⟩ := pg
      cases fp with
      | none => rfl
      | some s =>
        cases s with
        | none => rfl
        | some s' =>
          have hfold : ∀ b : List Int, links.foldl En.linkStep b = links.foldl Ja.linkStep b := by
            intro b
            rw [linkStep_en_eq_ja]
          simp only [En.crawl, Ja.crawl]
          by_cases hm : pyIn loggedOutMarker s' = true
          · simp [hm]
          · simp only [hm, if_neg, Bool.false_eq_true, not_false_eq_true, if_false]
            by_cases hl : links.isEmpty = true
            · simp [hl]
            · simp only [hl, if_false, Bool.false_eq_true, not_false_eq_true]
              rw [hfold]
              cases nxt with
              | none => rfl
              | some h =>
                by_cases hh : h.isEmpty = true
                · simp [hh]
                · simp [hh, ih]

/-- When the en fetcher saves a post, the ja fetcher saves the same
body under its own sanitized names, and the en names are the en
sanitizations of the same raw name and title. -/
theorem scrape_saved_relation (scope : Str) (pid : Int) (p : Post) (d f b : Str)
    (h : En.scrape_and_save_post_api scope pid p = .saved d f b) :
    Ja.scrape_and_save_post_api scope pid p
      = .saved (Ja.sanitize_filename (Ja.fanclubNameOf p))
          (Ja.sanitize_filename (Ja.titleOf pid p) ++ str ".txt") b ∧
    d = En.sanitize_filename (En.fanclubNameOf p) ∧
    f = En.sanitize_filename (En.titleOf pid p) ++ str ".txt" := by
  unfold En.scrape_and_save_post_api at h
  split at h
  · exact absurd h (by simp)
  · split at h
    · exact absurd h (by simp)
    · rename_i h1 h2
      unfold En.afterScope at h
      split at h
      · exact absurd h (by simp)
      · rename_i body hbody
        injection h with hd hrest
        rename_i hfb
        unfold Ja.scrape_and_save_post_api
        rw [if_neg (by rw [← is_paid_en_eq_ja]; exact h1),
          if_neg (by rw [← is_paid_en_eq_ja]; exact h2)]
        unfold Ja.afterScope
        rw [← extractBody_en_eq_ja, hbody]
        subst hfb
        exact ⟨rfl, hd.symm, hrest.symm⟩

/-- C1: for every API post record, body extraction follows the stated
precedence — a non-empty comprehension of truthy segment comments wins
(its double-newline join, in segment order, is the body even when the
top-level fields are present), else a truthy top-level comment, else a
truthy blog comment, and with all three absent nothing is extracted,
the fetcher writes no file and reports the warning outcome. -/
theorem C1_body_extraction_precedence (p : Post) :
    (En.contentParts p ≠ [] ↔ ∃ c ∈ p.post_contents, ∃ s, c.comment = some s ∧ s ≠ []) ∧
    (En.contentParts p ≠ [] →
      En.extractBody p = some (List.intercalate (str "\n\n") (En.contentParts p))) ∧
    (En.contentParts p = [] → truthyStr p.comment = true → En.extractBody p = p.comment) ∧
    (En.contentParts p = [] → truthyStr p.comment = false → truthyStr p.blog_comment = true →
      En.extractBody p = p.blog_comment) ∧
    (En.contentParts p = [] → truthyStr p.comment = false → truthyStr p.blog_comment = false →
      En.extractBody p = none ∧ ∀ pid : Int, En.afterScope pid p = PostOutcome.noContent) :=
  ⟨contentParts_ne_nil_iff p, extractBody_of_parts p, extractBody_of_comment p,
    extractBody_of_blog p, fun h1 h2 h3 =>
      ⟨extractBody_of_none p h1 h2 h3,
        fun pid => afterScope_noContent_of_none pid p (extractBody_of_none p h1 h2 h3)⟩⟩

/-- Witness for C1: a record whose segments hold one non-empty comment
next to an empty and an absent one, with both top-level fields present,
extracts the join of the surviving parts; a record with nothing
extracts nothing and ends in the warning outcome. -/
theorem C1_body_extraction_precedence_witness :
    En.extractBody (Post.mk none [Segment.mk (some (str "A")) none, Segment.mk (some []) none]
        (some (str "C")) (some (str "B")) none)
      = some (List.intercalate (str "\n\n")
          (En.contentParts (Post.mk none
            [Segment.mk (some (str "A")) none, Segment.mk (some []) none]
            (some (str "C")) (some (str "B")) none))) ∧
    En.extractBody (Post.mk none [] none none none) = none ∧
    En.afterScope 7 (Post.mk none [] none none none) = PostOutcome.noContent :=
  ⟨(C1_body_extraction_precedence _).2.1 (by decide),
   ((C1_body_extraction_precedence (Post.mk none [] none none none)).2.2.2.2
      (by decide) (by decide) (by decide)).1,
   ((C1_body_extraction_precedence (Post.mk none [] none none none)).2.2.2.2
      (by decide) (by decide) (by decide)).2 7⟩

/-- C2: a post is classified paid exactly when some content segment
carries a plan whose price (defaulting to zero when absent) is positive;
in particular the classification is false for an empty segment list,
when no segment has a plan, and when every plan's price is at most
zero. -/
theorem C2_is_paid_characterization (p : Post) :
    (En.is_paid p = true ↔
      ∃ c ∈ p.post_contents, ∃ pl, c.plan = some pl ∧ 0 < pl.price.getD 0) ∧
    (p.post_contents = [] → En.is_paid p = false) ∧
    ((∀ c ∈ p.post_contents, c.plan = none) → En.is_paid p = false) ∧
    ((∀ c ∈ p.post_contents, ∀ pl, c.plan = some pl → pl.price.getD 0 ≤ 0) →
      En.is_paid p = false) := by
  refine ⟨is_paid_eq_true_iff p, ?_, ?_, ?_⟩
  · intro h
    rw [← Bool.not_eq_true]
    intro ht
    obtain ⟨c, hc, _⟩ := (is_paid_eq_true_iff p).mp ht
    rw [h] at hc
    simp at hc
  · intro h
    rw [← Bool.not_eq_true]
    intro ht
    obtain ⟨c, hc, pl, hplan, _⟩ := (is_paid_eq_true_iff p).mp ht
    rw [h c hc] at hplan
    simp at hplan
  · intro h
    rw [← Bool.not_eq_true]
    intro ht
    obtain ⟨c, hc, pl, hplan, hpr⟩ := (is_paid_eq_true_iff p).mp ht
    have := h c hc pl hplan
    omega

/-- Witness for C2: a record with one priced plan is paid; an empty
record, a plan-less record and a zero-priced record are not. -/
theorem C2_is_paid_characterization_witness :
    En.is_paid (Post.mk none [Segment.mk none (some (Plan.mk (some 500)))] none none none)
      = true ∧
    En.is_paid (Post.mk none [] none none none) = false ∧
    En.is_paid (Post.mk none [Segment.mk (some (str "A")) none] none none none) = false ∧
    En.is_paid (Post.mk none [Segment.mk none (some (Plan.mk (some 0)))] none none none)
      = false :=
  ⟨(C2_is_paid_characterization _).1.mpr
      ⟨Segment.mk none (some (Plan.mk (some 500))), by decide, Plan.mk (some 500), rfl,
        by decide⟩,
   (C2_is_paid_characterization _).2.1 rfl,
   (C2_is_paid_characterization _).2.2.1 (by decide),
   (C2_is_paid_characterization _).2.2.2 (by decide)⟩

/-- C3: the scope filter skips (writing nothing and never reaching
extraction) a non-paid post under the paid scope and a paid post under
the free scope, while the all scope always hands the record to the
post-filter extraction code, whose outcome is never a scope skip. -/
theorem C3_scope_filtering (scope : Str) (pid : Int) (p : Post) :
    (scope = str "paid" → En.is_paid p = false →
      En.scrape_and_save_post_api scope pid p = PostOutcome.skippedScope) ∧
    (scope = str "free" → En.is_paid p = true →
      En.scrape_and_save_post_api scope pid p = PostOutcome.skippedScope) ∧
    (scope = str "all" →
      En.scrape_and_save_post_api scope pid p = En.afterScope pid p ∧
      En.scrape_and_save_post_api scope pid p ≠ PostOutcome.skippedScope) := by
  refine ⟨?_, ?_, ?_⟩
  · rintro rfl hp
    simp [En.scrape_and_save_post_api, hp]
  · rintro rfl hp
    have hne : str "free" ≠ str "paid" := by decide
    simp [En.scrape_and_save_post_api, hp, hne]
  · rintro rfl
    have h1 : str "all" ≠ str "paid" := by decide
    have h2 : str "all" ≠ str "free" := by decide
    have heq : En.scrape_and_save_post_api (str "all") pid p = En.afterScope pid p := by
      simp [En.scrape_and_save_post_api, h1, h2]
    exact ⟨heq, heq ▸ afterScope_en_ne_skip pid p⟩

/-- Witness for C3: a free post is skipped under the paid scope, a paid
post under the free scope, and the all scope processes a free post
through extraction. -/
theorem C3_scope_filtering_witness :
    En.scrape_and_save_post_api (str "paid") 1 (Post.mk none [] (some (str "x")) none none)
      = PostOutcome.skippedScope ∧
    En.scrape_and_save_post_api (str "free") 2
      (Post.mk none [Segment.mk none (some (Plan.mk (some 300)))] none none none)
      = PostOutcome.skippedScope ∧
    En.scrape_and_save_post_api (str "all") 3 (Post.mk none [] (some (str "x")) none none)
      = En.afterScope 3 (Post.mk none [] (some (str "x")) none none) :=
  ⟨(C3_scope_filtering (str "paid") 1 _).1 rfl (by decide),
   (C3_scope_filtering (str "free") 2 _).2.1 rfl (by decide),
   ((C3_scope_filtering (str "all") 3 _).2.2 rfl).1⟩

/-- C4 counterexample: a retrievable page whose frontend-params script
element is present but has no string content (BeautifulSoup's
`.string` is `None`, as for an empty script element) makes the
substring test of line 108 raise a `TypeError` that no handler in
`get_all_post_ids` catches, so the collector raises to its caller
instead of returning a list — refuting the claim that it returns an
empty list without raising for every possible content of the marker
element. -/
theorem C4_collector_raises_counterexample :
    En.get_all_post_ids [some (Page.mk (some none) [] none)] = CrawlResult.raised := rfl

/-- C4 (amended): the collector returns an empty list without raising
when a page response is not retrievable, when the marker element is
absent, and when the marker element's string content shows the session
as unauthenticated — including on a later page, after identifiers were
already collected into the accumulator; but when the marker element is
present with no string content, the membership test raises a
`TypeError` that propagates to the caller. -/
theorem C4_collector_failure_behaviour :
    (∀ (rest : List (Option Page)) (acc : List Int),
      En.crawl (none :: rest) acc = CrawlResult.ok []) ∧
    (∀ (pg : Page) (rest : List (Option Page)) (acc : List Int),
      pg.frontendParams = none → En.crawl (some pg :: rest) acc = CrawlResult.ok []) ∧
    (∀ (pg : Page) (rest : List (Option Page)) (acc : List Int) (s : Str),
      pg.frontendParams = some (some s) → pyIn loggedOutMarker s = true →
      En.crawl (some pg :: rest) acc = CrawlResult.ok []) ∧
    (∀ (pg : Page) (rest : List (Option Page)) (acc : List Int),
      pg.frontendParams = some none → En.crawl (some pg :: rest) acc = CrawlResult.raised) := by
  refine ⟨fun rest acc => rfl, ?_, ?_, ?_⟩
  · intro pg rest acc hfp
    unfold En.crawl
    rw [hfp]
  · intro pg rest acc s hfp hm
    unfold En.crawl
    rw [hfp]
    simp [hm]
  · intro pg rest acc hfp
    unfold En.crawl
    rw [hfp]

/-- Witness for the amended C4: concrete instances of each failure
shape, with identifiers already in the accumulator. -/
theorem C4_collector_failure_behaviour_witness :
    En.crawl [none] [5] = CrawlResult.ok [] ∧
    En.crawl [some (Page.mk none [] none)] [5] = CrawlResult.ok [] ∧
    En.crawl [some (Page.mk (some (some loggedOutMarker)) [] none)] [5]
      = CrawlResult.ok [] ∧
    En.crawl [some (Page.mk (some none) [] none)] [5] = CrawlResult.raised :=
  ⟨C4_collector_failure_behaviour.1 [] [5],
   C4_collector_failure_behaviour.2.1 (Page.mk none [] none) [] [5] rfl,
   C4_collector_failure_behaviour.2.2.1 (Page.mk (some (some loggedOutMarker)) [] none)
      [] [5] loggedOutMarker rfl (by decide),
   C4_collector_failure_behaviour.2.2.2 (Page.mk (some none) [] none) [] [5] rfl⟩

/-- C5: a normally returned identifier list is duplicate-free, the
collector's append-if-new discipline realizes exactly the first
occurrences (in encounter order) of the identifiers not yet collected,
and the two-page scenario with a repeated identifier returns exactly
`[10, 11]`. -/
theorem C5_dedup_first_encounter_order :
    (∀ (t : List (Option Page)) (acc : List Int), acc.Nodup →
      ∀ ids, En.crawl t acc = CrawlResult.ok ids → ids.Nodup) ∧
    (∀ (ids : List Int) (acc : List Int),
      ids.foldl En.insertInt acc
        = acc ++ firstOccurrences (ids.filter (fun i => decide (i ∉ acc)))) ∧
    En.get_all_post_ids
      [some (Page.mk (some (some (str "x")))
        [some (str "/posts/10"), some (str "/posts/11")]
        (some (str "/fanclubs/1/posts?page=2"))),
       some (Page.mk (some (some (str "x")))
        [some (str "/posts/10")]
        none)] = CrawlResult.ok [10, 11] :=
  ⟨crawl_preserves_nodup, fun ids acc => foldl_insertInt_eq ids acc, by decide⟩

/-- Witness for C5: the crawl of the scenario starts from the
duplicate-free empty accumulator and its result is duplicate-free. -/
theorem C5_dedup_first_encounter_order_witness :
    ([] : List Int).Nodup ∧ ([10, 11] : List Int).Nodup :=
  ⟨List.nodup_nil,
   C5_dedup_first_encounter_order.1
    [some (Page.mk (some (some (str "x")))
      [some (str "/posts/10"), some (str "/posts/11")]
      (some (str "/fanclubs/1/posts?page=2"))),
     some (Page.mk (some (some (str "x")))
      [some (str "/posts/10")]
      none)] [] List.nodup_nil [10, 11] (by decide)⟩

/-- C6: an anchor href that contains the post marker and whose trailing
path segment is a non-empty digit string contributes exactly the
decimal value of that segment, and an href whose trailing segment does
not parse as an integer contributes nothing wherever it appears in the
link list. -/
theorem C6_href_identifier_extraction (href : Str) :
    ((∃ s t, href = s ++ str "/posts/" ++ t) → lastSegment href ≠ [] →
      (∀ c ∈ lastSegment href, c.isDigit = true) →
      En.extractLink (some href) = some (Int.ofNat (decimalValue (lastSegment href)))) ∧
    (pyIntOfChars (lastSegment href) = none →
      ∀ (l1 l2 : List (Option Str)) (acc : List Int),
        (l1 ++ some href :: l2).foldl En.linkStep acc
          = (l1 ++ l2).foldl En.linkStep acc) := by
  constructor
  · intro hin hseg hdig
    have hpy : pyIn (str "/posts/") href = true := (pyIn_eq_true_iff _ _).mpr hin
    have hne : ¬href.isEmpty = true := by
      obtain ⟨s, t, rfl⟩ := hin
      simp [List.isEmpty_iff, str]
    simp only [En.extractLink]
    rw [if_pos ⟨hne, hpy⟩]
    exact pyIntOfChars_of_digits _ hseg hdig
  · intro hnone l1 l2 acc
    have hext : En.extractLink (some href) = none := by
      simp only [En.extractLink]
      split
      · exact hnone
      · rfl
    have hstep : ∀ a : List Int, En.linkStep a (some href) = a := by
      intro a
      unfold En.linkStep
      rw [hext]
    rw [List.foldl_append, List.foldl_append, List.foldl_cons, hstep]

/-- Witness for C6: a digit href contributes its decimal value and a
non-numeric href contributes nothing. -/
theorem C6_href_identifier_extraction_witness :
    En.extractLink (some (str "/posts/123"))
      = some (Int.ofNat (decimalValue (lastSegment (str "/posts/123")))) ∧
    ([some (str "/posts/9")] ++ some (str "/posts/abc") :: []).foldl En.linkStep []
      = ([some (str "/posts/9")] ++ []).foldl En.linkStep [] :=
  ⟨(C6_href_identifier_extraction (str "/posts/123")).1
      ⟨[], str "123", by decide⟩ (by decide) (by decide),
   (C6_href_identifier_extraction (str "/posts/abc")).2 (by decide)
      [some (str "/posts/9")] [] []⟩

/-- C7: sanitization in both variants replaces exactly the nine
reserved characters with the variant's placeholder, leaves every other
character unchanged, and preserves the length of its input. -/
theorem C7_sanitize_pointwise (s : Str) :
    (En.sanitize_filename s).length = s.length ∧
    (Ja.sanitize_filename s).length = s.length ∧
    (∀ c : Char, isInvalidChar c = true ↔
      c ∈ ['\\', '/', ':', '*', '?', '"', '<', '>', '|']) ∧
    (∀ i, i < s.length →
      (En.sanitize_filename s).getD i 'a'
        = (if isInvalidChar (s.getD i 'a') then '-' else s.getD i 'a') ∧
      (Ja.sanitize_filename s).getD i 'a'
        = (if isInvalidChar (s.getD i 'a') then '－' else s.getD i 'a')) := by
  refine ⟨sanitize_en_length s, sanitize_ja_length s, ?_, ?_⟩
  · intro c
    simp [isInvalidChar]
    tauto
  · intro i hi
    exact ⟨sanitize_en_getD s i hi, sanitize_ja_getD s i hi⟩

/-- Witness for C7: the colon of a concrete name is replaced and its
neighbours are kept, in both variants. -/
theorem C7_sanitize_pointwise_witness :
    (En.sanitize_filename (str "a:b")).getD 1 'a'
      = (if isInvalidChar ((str "a:b").getD 1 'a') then '-' else (str "a:b").getD 1 'a') ∧
    (Ja.sanitize_filename (str "a:b")).getD 1 'a'
      = (if isInvalidChar ((str "a:b").getD 1 'a') then '－' else (str "a:b").getD 1 'a') :=
  (C7_sanitize_pointwise (str "a:b")).2.2.2 1 (by decide)

/-- C8: the two localized variants agree on the whole core pipeline —
identical collector results, identical paid classification, identical
scope decision, identical extracted body — and on a saved post they
write the same body, the variants' directory and file names being the
respective sanitizations (hyphen versus full-width hyphen at exactly
the reserved characters) of the same raw creator name and title. -/
theorem C8_variant_equivalence :
    (∀ pages, En.get_all_post_ids pages = Ja.get_all_post_ids pages) ∧
    (∀ p, En.is_paid p = Ja.is_paid p) ∧
    (∀ scope pid p,
      (En.scrape_and_save_post_api scope pid p = PostOutcome.skippedScope ↔
       Ja.scrape_and_save_post_api scope pid p = PostOutcome.skippedScope)) ∧
    (∀ p, En.extractBody p = Ja.extractBody p) ∧
    (∀ scope pid p d f b,
      En.scrape_and_save_post_api scope pid p = PostOutcome.saved d f b →
      Ja.scrape_and_save_post_api scope pid p
        = PostOutcome.saved (Ja.sanitize_filename (Ja.fanclubNameOf p))
            (Ja.sanitize_filename (Ja.titleOf pid p) ++ str ".txt") b ∧
      d = En.sanitize_filename (En.fanclubNameOf p) ∧
      f = En.sanitize_filename (En.titleOf pid p) ++ str ".txt") ∧
    (∀ (s : Str) (i : Nat), i < s.length →
      (isInvalidChar (s.getD i 'a') = true →
        (En.sanitize_filename s).getD i 'a' = '-' ∧
        (Ja.sanitize_filename s).getD i 'a' = '－') ∧
      (isInvalidChar (s.getD i 'a') = false →
        (En.sanitize_filename s).getD i 'a' = (Ja.sanitize_filename s).getD i 'a' ∧
        (En.sanitize_filename s).getD i 'a' = s.getD i 'a')) := by
  refine ⟨?_, is_paid_en_eq_ja, ?_, extractBody_en_eq_ja, scrape_saved_relation, ?_⟩
  · intro pages
    exact crawl_en_eq_ja pages []
  · intro scope pid p
    rw [scrape_en_skipped_iff, scrape_ja_skipped_iff, is_paid_en_eq_ja]
  · intro s i hi
    constructor
    · intro hc
      rw [sanitize_en_getD s i hi, sanitize_ja_getD s i hi, hc]
      simp
    · intro hc
      rw [sanitize_en_getD s i hi, sanitize_ja_getD s i hi, hc]
      simp

/-- Witness for C8: on a concrete saved post the ja variant writes the
same body under its full-width-sanitized names, and at the slash of a
concrete name the en variant writes a hyphen where the ja variant
writes a full-width hyphen. -/
theorem C8_variant_equivalence_witness :
    Ja.scrape_and_save_post_api (str "all") 5
      (Post.mk (some (str "t:x")) [] (some (str "hello")) none
        (some (Fanclub.mk (some (str "fc/name")) none)))
      = PostOutcome.saved
          (Ja.sanitize_filename (Ja.fanclubNameOf
            (Post.mk (some (str "t:x")) [] (some (str "hello")) none
              (some (Fanclub.mk (some (str "fc/name")) none)))))
          (Ja.sanitize_filename (Ja.titleOf 5
            (Post.mk (some (str "t:x")) [] (some (str "hello")) none
              (some (Fanclub.mk (some (str "fc/name")) none)))) ++ str ".txt")
          (str "hello") ∧
    (En.sanitize_filename (str "fc/name")).getD 2 'a' = '-' ∧
    (Ja.sanitize_filename (str "fc/name")).getD 2 'a' = '－' :=
  ⟨(C8_variant_equivalence.2.2.2.2.1 (str "all") 5
      (Post.mk (some (str "t:x")) [] (some (str "hello")) none
        (some (Fanclub.mk (some (str "fc/name")) none)))
      (str "fc-name") (str "t-x.txt") (str "hello") (by decide)).1,
   (C8_variant_equivalence.2.2.2.2.2 (str "fc/name") 2 (by decide)).1 (by decide)⟩

/-- C9: sanitization is idempotent in both variants, because neither
placeholder character is itself in the reserved character class. -/
theorem C9_sanitize_idempotent :
    (∀ s : Str, En.sanitize_filename (En.sanitize_filename s) = En.sanitize_filename s) ∧
    (∀ s : Str, Ja.sanitize_filename (Ja.sanitize_filename s) = Ja.sanitize_filename s) ∧
    isInvalidChar '-' = false ∧ isInvalidChar '－' = false := by
  refine ⟨?_, ?_, by decide, by decide⟩
  · intro s
    induction s with
    | nil => rfl
    | cons c cs ih =>
      by_cases h : isInvalidChar c = true
      · simp [En.sanitize_filename, h, ih, (by decide : isInvalidChar '-' = false)]
      · simp [En.sanitize_filename, h, ih]
  · intro s
    induction s with
    | nil => rfl
    | cons c cs ih =>
      by_cases h : isInvalidChar c = true
      · simp [Ja.sanitize_filename, h, ih, (by decide : isInvalidChar '－' = false)]
      · simp [Ja.sanitize_filename, h, ih]

/-- C10: the orchestrator of the en variant tests the listing marker
first — a URL containing the fan-club marker takes the collector path
even when it also contains the post marker; the single-post path is
taken exactly for URLs with the post marker but not the fan-club
marker; all remaining URLs are dispatched to the unsupported-format
warning. -/
theorem C10_url_classification (url : Str) :
    ((∃ s t, url = s ++ str "/fanclubs/" ++ t) → En.classifyUrl url = En.UrlAction.fanclub) ∧
    ((∃ s t, url = s ++ str "/posts/" ++ t) →
      (¬∃ s t, url = s ++ str "/fanclubs/" ++ t) →
      En.classifyUrl url = En.UrlAction.singlePost) ∧
    ((¬∃ s t, url = s ++ str "/fanclubs/" ++ t) →
      (¬∃ s t, url = s ++ str "/posts/" ++ t) →
      En.classifyUrl url = En.UrlAction.unsupported) := by
  refine ⟨?_, ?_, ?_⟩
  · intro h
    have hf := (pyIn_eq_true_iff (str "/fanclubs/") url).mpr h
    simp [En.classifyUrl, hf]
  · intro hp hf
    have hp2 := (pyIn_eq_true_iff (str "/posts/") url).mpr hp
    have hf2 : pyIn (str "/fanclubs/") url = false := by
      rw [← Bool.not_eq_true]
      intro hc
      exact hf ((pyIn_eq_true_iff _ _).mp hc)
    simp [En.classifyUrl, hf2, hp2]
  · intro hf hp
    have hf2 : pyIn (str "/fanclubs/") url = false := by
      rw [← Bool.not_eq_true]
      intro hc
      exact hf ((pyIn_eq_true_iff _ _).mp hc)
    have hp2 : pyIn (str "/posts/") url = false := by
      rw [← Bool.not_eq_true]
      intro hc
      exact hp ((pyIn_eq_true_iff _ _).mp hc)
    simp [En.classifyUrl, hf2, hp2]

/-- Witness for C10: a URL with both markers takes the collector path,
a post-only URL takes the single-post path and a bare domain is
unsupported. -/
theorem C10_url_classification_witness :
    En.classifyUrl (str "https://fantia.jp/fanclubs/1/posts/2") = En.UrlAction.fanclub ∧
    En.classifyUrl (str "https://fantia.jp/posts/2") = En.UrlAction.singlePost ∧
    En.classifyUrl (str "https://fantia.jp/") = En.UrlAction.unsupported :=
  ⟨(C10_url_classification (str "https://fantia.jp/fanclubs/1/posts/2")).1
      ⟨str "https://fantia.jp", str "1/posts/2", by decide⟩,
   (C10_url_classification (str "https://fantia.jp/posts/2")).2.1
      ⟨str "https://fantia.jp", str "2", by decide⟩
      (fun h => absurd ((pyIn_eq_true_iff _ _).mpr h) (by decide)),
   (C10_url_classification (str "https://fantia.jp/")).2.2
      (fun h => absurd ((pyIn_eq_true_iff _ _).mpr h) (by decide))
      (fun h => absurd ((pyIn_eq_true_iff _ _).mpr h) (by decide))⟩
